import Mathlib

/-!
Verification of the peer-to-peer network synchronization subsystem of
BookmarkManager (src/models/network/*), as a shallow embedding in Lean 4.

Time is modelled in whole seconds as `Nat`; `datetime.now()` values become
explicit `now : Nat` arguments.  Python dictionaries keyed by address become
explicit per-address state records; the insertion-ordered dictionary
`service_history` becomes an association list.  Fallible paths return
explicit result values.
-/

namespace BookmarkManager

/-! ## ConnectionGuard: admission control of `NetworkHandler`
    (src/models/network/network_handler.py) -/

/-- Per-address security state of `NetworkHandler`: the entry of
`self.connection_attempts[address]` (`count`, `first_attempt`) together with
the entry of `self.blacklist[address]` (`blUntil`, the unblock time);
`first_attempt = none` models a fresh `defaultdict` entry. -/
structure GuardState where
  count : Nat
  first_attempt : Option Nat
  blUntil : Option Nat
  deriving Repr, DecidableEq

/-- `NetworkHandler._check_connection_attempts` (network_handler.py lines
365-387): sliding window anchored at the first attempt; more than 5 attempts
within 60 seconds of the first blacklists the address until `now + 1800`
(30 minutes) and returns `false`; an attempt at least 60 seconds after the
first resets the window. -/
def check_connection_attempts (g : GuardState) (now : Nat) : Bool × GuardState :=
  match g.first_attempt with
  | none => (true, { g with first_attempt := some now, count := 1 })
  | some f =>
    if now - f < 60 then
      let c := g.count + 1
      if c > 5 then
        (false, { g with count := c, blUntil := some (now + 1800) })
      else
        (true, { g with count := c })
    else
      (true, { g with first_attempt := some now, count := 1 })

/-- `NetworkHandler._is_blacklisted` (network_handler.py lines 356-363):
true while `now < blUntil`; an expired entry is lazily deleted. -/
def is_blacklisted (g : GuardState) (now : Nat) : Bool × GuardState :=
  match g.blUntil with
  | none => (false, g)
  | some u => if now < u then (true, g) else (false, { g with blUntil := none })

/-- Outcome of the admission checks run at the top of
`NetworkHandler._handle_connection` (network_handler.py lines 157-174),
one constructor per close code. -/
inductive AdmitResult where
  | rejectedBlacklisted        -- close 4001
  | rejectedTooManyAttempts    -- close 4002
  | rejectedCapacity           -- close 4003
  | accepted
  deriving Repr, DecidableEq

/-- The admission sequence of `NetworkHandler._handle_connection` for one
address: blacklist check first, then connection-attempt check, then the
concurrent-connection cap (`max_connections = 10`). -/
def handle_connection_admission (g : GuardState) (now : Nat) (numConnections : Nat) :
    AdmitResult × GuardState :=
  let (bl, g1) := is_blacklisted g now
  if bl then (.rejectedBlacklisted, g1)
  else
    let (ok, g2) := check_connection_attempts g1 now
    if !ok then (.rejectedTooManyAttempts, g2)
    else if numConnections ≥ 10 then (.rejectedCapacity, g2)
    else (.accepted, g2)

/-- Runs `check_connection_attempts` over a sequence of attempt times,
collecting the per-attempt results. -/
def run_attempts : GuardState → List Nat → List Bool × GuardState
  | g, [] => ([], g)
  | g, t :: ts =>
    let (b, g1) := check_connection_attempts g t
    let (bs, g2) := run_attempts g1 ts
    (b :: bs, g2)

/-- The fresh per-address state produced by the `defaultdict` factories of
`NetworkHandler.__init__`. -/
def freshGuard : GuardState := { count := 0, first_attempt := none, blUntil := none }

/-! ## Per-connection rate limiting (`NetworkHandler._check_rate_limit`) -/

/-- The rate-limiting fields of one entry of
`NetworkHandler.connection_states`: `message_count` and `rate_limit_reset`.
At accept time (network_handler.py lines 192-199) they are initialised to
`0` and the accept timestamp. -/
structure RateState where
  message_count : Nat
  rate_limit_reset : Option Nat
  deriving Repr, DecidableEq

/-- `NetworkHandler.rate_limit = 100` messages per minute. -/
def rate_limit : Nat := 100

/-- `NetworkHandler._check_rate_limit` (network_handler.py lines 389-406):
if more than 60 seconds passed since the last reset (or no reset is
recorded), zero the counter, move the reset time to `now` and accept;
otherwise reject once the counter has reached `rate_limit`, and accept
(incrementing the counter) below it.  The rejecting call leaves the state
unchanged. -/
def check_rate_limit (st : RateState) (now : Nat) : Bool × RateState :=
  match st.rate_limit_reset with
  | none => (true, ⟨0, some now⟩)
  | some last =>
    if now - last > 60 then
      (true, ⟨0, some now⟩)
    else if st.message_count ≥ rate_limit then
      (false, st)
    else
      (true, ⟨st.message_count + 1, some last⟩)

/-- Runs `check_rate_limit` over a sequence of message-arrival times,
collecting the per-message results, as the message loop of
`NetworkHandler._handle_connection` does for successive frames. -/
def run_rate : RateState → List Nat → List Bool × RateState
  | st, [] => ([], st)
  | st, t :: ts =>
    let (b, st1) := check_rate_limit st t
    let (bs, st2) := run_rate st1 ts
    (b :: bs, st2)

/-! ## Message-size anomaly check (`NetworkHandler._check_message_size`)

Python computes the average with float division; the embedding uses exact
rational arithmetic, which agrees on all integer byte counts relevant here. -/

/-- `NetworkHandler.max_message_size = 1024 * 1024` bytes. -/
def max_message_size : Nat := 1024 * 1024

/-- `NetworkHandler._check_message_size` (network_handler.py lines 408-419):
appends `size` to the per-address window `self.message_sizes[address]`, pops
the oldest entry once the window exceeds 10 samples, computes the average of
the resulting window (which includes `size` itself), and rejects when
`size > max_message_size` or `size > avg * 3`.  Returns the verdict together
with the updated window. -/
def check_message_size (sizes : List Nat) (size : Nat) : Bool × List Nat :=
  let s1 := sizes ++ [size]
  let s2 := if s1.length > 10 then s1.drop 1 else s1
  let avg : ℚ := (s2.sum : ℚ) / (s2.length : ℚ)
  if size > max_message_size ∨ (size : ℚ) > avg * 3 then (false, s2) else (true, s2)

/-- Spec-side definition of the rolling window: the last 10 message sizes
after the incoming size has been appended and, once the window holds more
than 10 samples, the oldest evicted.  Used to characterise
`check_message_size`. -/
def rolling_window (sizes : List Nat) (size : Nat) : List Nat :=
  let s1 := sizes ++ [size]
  if s1.length > 10 then s1.drop 1 else s1

/-! ## Server message dispatch (`NetworkHandler._handle_message`)

The decrypted payload dictionary is modelled by `InnerMsg`; a field that may
be absent from the dictionary is an `Option`.  The NaCl decryption itself and
the two JSON parses are external effects whose outcomes are modelled by
`DecryptOutcome` and `Inbound`.  The reply's `timestamp` field
(`datetime.now().isoformat()`) is wall-clock output and is omitted. -/

/-- The decrypted inner message dictionary: `type` and `data` model field
presence (`'type' in data`) and the `type` value; `session_token` models
`data.get('session_token')`; the type-specific payload is kept opaque. -/
structure InnerMsg where
  type : Option String
  data : Option String
  session_token : Option String
  deriving Repr, DecidableEq

/-- Outcome of `self._decrypt_message` followed by `json.loads` on the
result: `cryptoError` when the NaCl box rejects the ciphertext (raises a
generic exception), `badJson` when the decrypted bytes are not JSON
(raises `json.JSONDecodeError`), `ok m` otherwise. -/
inductive DecryptOutcome where
  | cryptoError
  | badJson
  | ok (m : InnerMsg)
  deriving Repr, DecidableEq

/-- One inbound WebSocket frame as `_handle_message` sees it: either the
outer `json.loads(message)` fails, or it yields an envelope with optional
`data` and `signature` fields whose decryption has outcome `dec`. -/
inductive Inbound where
  | badJson
  | envelope (data : Option String) (signature : Option String) (dec : DecryptOutcome)
  deriving Repr, DecidableEq

/-- Python falsiness of `message_data.get(field)`: `None` or the empty
string (the two falsy values a JSON string field can take). -/
def falsy (o : Option String) : Bool := o.getD "" = ""

/-- `NetworkHandler._validate_message` (network_handler.py lines 241-244):
both `type` and `data` must be present in the decrypted dictionary. -/
def validate_message (m : InnerMsg) : Bool := m.type.isSome && m.data.isSome

/-- A reply dictionary built by `_handle_message`: `type`, the `status`
field of an `ack`, the `message` field of an `error`, and the echoed
`session_token`. -/
structure Response where
  type : String
  status : Option String
  message : Option String
  session_token : String
  deriving Repr, DecidableEq

/-- What `_handle_message` does with one frame: close the connection with a
close code, or send back `reply r signKey` — the response `r`, serialised,
HMAC-SHA256-signed with key `signKey`, encrypted and sent. -/
inductive ServerAction where
  | close (code : Nat)
  | reply (r : Response) (signKey : String)
  deriving Repr, DecidableEq

/-- `NetworkHandler._handle_message` (network_handler.py lines 246-308).
`stateToken` is the random `session_token` stored in
`self.connection_states[address]` at accept time (line 198); it is passed in
to show it plays no role, exactly as the source never reads it here.
Close codes: outer/inner `json.JSONDecodeError` → 4007; any other raised
error (missing/empty `data` or `signature`, decryption failure, structure
validation failure) → 4008.  Note the source never verifies the envelope's
`signature` value — it only requires the field to be non-empty — and it
signs the reply with the *inbound* message's `session_token`
(`data.get('session_token', '')`), not with `stateToken`. -/
def handle_message (stateToken : String) (msg : Inbound) : ServerAction :=
  match msg with
  | .badJson => .close 4007
  | .envelope d s dec =>
    if falsy d || falsy s then .close 4008
    else
      match dec with
      | .cryptoError => .close 4008
      | .badJson => .close 4007
      | .ok m =>
        if !validate_message m then .close 4008
        else
          let tok := m.session_token.getD ""
          let resp : Response :=
            if m.type = some "ping" then ⟨"pong", none, none, tok⟩
            else if m.type = some "bookmarks" then ⟨"ack", some "received", none, tok⟩
            else ⟨"error", none, some "Unknown message type", tok⟩
          .reply resp tok

/-! ## Client reconnection and outbound queue (`NetworkClient`,
src/models/network/network_client.py) -/

/-- `NetworkClient.max_reconnect_attempts`. -/
def max_reconnect_attempts : Nat := 5

/-- `NetworkClient.reconnect_delay` (seconds). -/
def reconnect_delay : Nat := 5

/-- The reconnection-relevant fields of `NetworkClient`:
`reconnect_attempts`, `connected`, and whether the `connection_lost` event
has been emitted. -/
structure ClientState where
  reconnect_attempts : Nat
  connected : Bool
  connection_lost_emitted : Bool
  deriving Repr, DecidableEq

/-- What one invocation of `_handle_connection_loss` does: sleep `delay`
seconds and call `self.connect` again, or give up (set `connected = False`
and emit `connection_lost`). -/
inductive LossAction where
  | retry (delay : Nat)
  | giveUp
  deriving Repr, DecidableEq

/-- `NetworkClient._handle_connection_loss` (network_client.py lines 86-98):
while fewer than `max_reconnect_attempts` attempts have been made, increment
the counter to `n` and retry after `reconnect_delay * 2 ^ (n - 1)` seconds;
otherwise set `connected = False`, emit `connection_lost`, and do not
retry. -/
def handle_connection_loss (st : ClientState) : LossAction × ClientState :=
  if st.reconnect_attempts < max_reconnect_attempts then
    let n := st.reconnect_attempts + 1
    (.retry (reconnect_delay * 2 ^ (n - 1)), { st with reconnect_attempts := n })
  else
    (.giveUp, { st with connected := false, connection_lost_emitted := true })

/-- A queued outbound message: the dictionary
`{"type": "bookmarks", "data": bookmarks}` with an opaque record type `α`. -/
structure QueuedMsg (α : Type) where
  type : String
  data : List α
  deriving Repr, DecidableEq

/-- `NetworkClient.send_bookmarks` (network_client.py lines 147-163): when
not connected, append the bookmarks message to `self.message_queue` and then
raise `ConnectionError("Not connected to peer")`; when connected, attempt
`_send_message` (`sendOk` models whether it succeeds), re-raising on failure
without touching the queue.  Returns the call's outcome and the queue. -/
def send_bookmarks {α : Type} (connected : Bool) (queue : List (QueuedMsg α))
    (bookmarks : List α) (sendOk : Bool) : Except String Unit × List (QueuedMsg α) :=
  if !connected then
    (.error "Not connected to peer", queue ++ [⟨"bookmarks", bookmarks⟩])
  else if sendOk then (.ok (), queue)
  else (.error "send failed", queue)

/-- One 1-second tick of `NetworkClient._process_message_queue`
(network_client.py lines 165-175): if the queue is non-empty, pop the head
(`pop(0)`), attempt `_send_message` (`sendOk`), and on failure append that
same message back at the tail. -/
def process_message_queue_tick {α : Type} (queue : List (QueuedMsg α))
    (sendOk : QueuedMsg α → Bool) : List (QueuedMsg α) :=
  match queue with
  | [] => queue
  | m :: rest => if sendOk m then rest else rest ++ [m]

/-! ## Connection-status history (`NetworkConnectionStatus`,
src/models/network/network_connection_status.py)

`service_history` is a Python dict keyed by service address with insertion
order; it is modelled as an association list with pairwise-distinct keys.
ISO-format timestamp strings compare chronologically, so timestamps are
modelled as `Nat`. -/

/-- `NetworkConnectionStatusType` (network_events.py lines 12-17). -/
inductive StatusType where
  | connected
  | disconnected
  | discovered
  | error
  deriving Repr, DecidableEq

/-- One value of the `service_history` dict: status type, timestamp, and the
opaque `service_info` / `error_message` payloads. -/
structure HistoryEntry where
  status_type : StatusType
  ts : Nat
  service_info : Option String
  error_message : Option String
  deriving Repr, DecidableEq

/-- `NetworkConnectionStatus.MAX_HISTORY_SIZE`. -/
def MAX_HISTORY_SIZE : Nat := 50

/-- The history dictionary: address → entry, in insertion order. -/
abbrev History := List (String × HistoryEntry)

/-- `addr in self.service_history`. -/
def containsKey (h : History) (addr : String) : Bool := h.any (fun p => p.1 = addr)

/-- `min(entry['timestamp'] for entry in self.service_history.values())`
(network_connection_status.py line 66); `0` on the empty dict, which the
source never reaches (the dict holds `MAX_HISTORY_SIZE` entries there). -/
def min_ts : History → Nat
  | [] => 0
  | [p] => p.2.ts
  | p :: q :: rest => min p.2.ts (min_ts (q :: rest))

/-- The eviction loop of `_update_service_history` (lines 67-70): iterate
the dict in order and delete the first entry whose timestamp equals `t`,
then stop. -/
def erase_first_with_ts (t : Nat) : History → History
  | [] => []
  | p :: rest => if p.2.ts = t then rest else p :: erase_first_with_ts t rest

/-- `self.service_history[service_address] = {...}` (line 72): replace the
entry in place if the key exists, else append. -/
def set_entry : History → String → HistoryEntry → History
  | [], addr, e => [(addr, e)]
  | p :: rest, addr, e =>
    if p.1 = addr then (addr, e) :: rest else p :: set_entry rest addr e

/-- `NetworkConnectionStatus._update_service_history`
(network_connection_status.py lines 62-77): when the history already holds
at least `MAX_HISTORY_SIZE` entries and the address is new, evict the first
entry carrying the minimal timestamp; then insert or overwrite the entry for
`addr`. -/
def update_service_history (h : History) (addr : String) (e : HistoryEntry) : History :=
  let h1 :=
    if MAX_HISTORY_SIZE ≤ h.length ∧ ¬ containsKey h addr then
      erase_first_with_ts (min_ts h) h
    else h
  set_entry h1 addr e

lemma check_attempts_in_window_ok (c f bl : _) (t : Nat)
    (hw : t - f < 60) (hc : c + 1 ≤ 5) :
    check_connection_attempts ⟨c, some f, bl⟩ t = (true, ⟨c + 1, some f, bl⟩) := by
  simp only [check_connection_attempts, if_pos hw]
  rw [if_neg (by omega)]

lemma check_attempts_in_window_reject (c f bl : _) (t : Nat)
    (hw : t - f < 60) (hc : c + 1 > 5) :
    check_connection_attempts ⟨c, some f, bl⟩ t = (false, ⟨c + 1, some f, some (t + 1800)⟩) := by
  simp only [check_connection_attempts, if_pos hw]
  rw [if_pos (by omega)]

/-- C2: six connection attempts from one address, each within 60 seconds of
the first, yield `true` from the attempt check five times and `false` on the
sixth, which also blacklists the address until 30 minutes (1800 s) after the
sixth attempt; a seventh attempt while the blacklist entry is unexpired is
rejected by the blacklist check alone — `_handle_connection` returns before
`_check_connection_attempts` runs, so the attempt counter and window are
left untouched. -/
theorem c2_attempt_throttle_then_blacklist
    (t1 t2 t3 t4 t5 t6 t7 n : Nat)
    (h2 : t2 - t1 < 60) (h3 : t3 - t1 < 60) (h4 : t4 - t1 < 60)
    (h5 : t5 - t1 < 60) (h6 : t6 - t1 < 60) (h7 : t7 < t6 + 1800) :
    run_attempts freshGuard [t1, t2, t3, t4, t5, t6]
      = ([true, true, true, true, true, false], ⟨6, some t1, some (t6 + 1800)⟩)
    ∧ handle_connection_admission ⟨6, some t1, some (t6 + 1800)⟩ t7 n
      = (.rejectedBlacklisted, ⟨6, some t1, some (t6 + 1800)⟩) := by
  have e1 : check_connection_attempts freshGuard t1 = (true, ⟨1, some t1, none⟩) := rfl
  have e2 := check_attempts_in_window_ok 1 t1 none t2 h2 (by omega)
  have e3 := check_attempts_in_window_ok 2 t1 none t3 h3 (by omega)
  have e4 := check_attempts_in_window_ok 3 t1 none t4 h4 (by omega)
  have e5 := check_attempts_in_window_ok 4 t1 none t5 h5 (by omega)
  have e6 := check_attempts_in_window_reject 5 t1 none t6 h6 (by omega)
  constructor
  · simp only [run_attempts, e1, e2, e3, e4, e5, e6]
  · simp [handle_connection_admission, is_blacklisted, if_pos h7]

/-- Witness for C2 at attempts 0,10,20,30,40,50 s and a seventh attempt at
55 s. -/
theorem c2_attempt_throttle_then_blacklist_witness :
    run_attempts freshGuard [0, 10, 20, 30, 40, 50]
      = ([true, true, true, true, true, false], ⟨6, some 0, some (50 + 1800)⟩)
    ∧ handle_connection_admission ⟨6, some 0, some (50 + 1800)⟩ 55 0
      = (.rejectedBlacklisted, ⟨6, some 0, some (50 + 1800)⟩) :=
  c2_attempt_throttle_then_blacklist 0 10 20 30 40 50 55 0
    (by decide) (by decide) (by decide) (by decide) (by decide) (by decide)

/-- A concrete 50-entry history with pairwise-distinct addresses, used to
exhibit the eviction behaviour at capacity. -/
def sample_history : History :=
  (List.range MAX_HISTORY_SIZE).map
    (fun i => (toString i, ⟨StatusType.connected, i, none, none⟩))

lemma reject_pair_fst_iff (c : Prop) [Decidable c] (w : List Nat) :
    ((if c then ((false : Bool), w) else (true, w)).1 = false) ↔ c := by
  split <;> simp_all

lemma reject_pair_snd (c : Prop) [Decidable c] (w : List Nat) :
    (if c then ((false : Bool), w) else (true, w)).2 = w := by
  split <;> rfl

/-- C3 counterexample: with the window holding ten sizes of 1000 bytes, the
check applied to an 11th message of 3500 bytes returns `true` (accepts it),
contradicting the claim that it returns `false`: the source computes the
average over the window *after* appending the new size (window
`[1000 x 9, 3500]`, average 1250, threshold 3750 ≥ 3500). -/
theorem c3_counterexample :
    (check_message_size [1000, 1000, 1000, 1000, 1000, 1000, 1000, 1000, 1000, 1000] 3500).1
      = true := by
  norm_num [check_message_size, max_message_size]

/-- C3 amended: the check rejects a message exactly when its size exceeds
1 MiB or exceeds 3 times the average of the rolling window of the last 10
message sizes *including the incoming size* (appended first, oldest evicted
once the window exceeds 10 samples); the window it stores is that rolling
window, which never grows beyond 10 samples. -/
theorem c3_amended (sizes : List Nat) (size : Nat) :
    ((check_message_size sizes size).1 = false ↔
      size > max_message_size ∨
        (size : ℚ) > ((rolling_window sizes size).sum : ℚ) / ((rolling_window sizes size).length : ℚ) * 3)
    ∧ (check_message_size sizes size).2 = rolling_window sizes size
    ∧ (sizes.length ≤ 10 → (rolling_window sizes size).length ≤ 10) := by
  refine ⟨?_, ?_, ?_⟩
  · simp only [check_message_size, rolling_window]
    exact reject_pair_fst_iff _ _
  · simp only [check_message_size, rolling_window]
    exact reject_pair_snd _ _
  · intro hlen
    simp only [rolling_window]
    split
    · simp only [List.length_drop, List.length_append, List.length_singleton]
      omega
    · omega

/-- Witness for C3 amended: after ten 1000-byte messages an 11th of 4000
bytes is rejected (average 1300, threshold 3900 < 4000) and the window stays
within 10 samples. -/
theorem c3_amended_witness :
    (check_message_size [1000, 1000, 1000, 1000, 1000, 1000, 1000, 1000, 1000, 1000] 4000).1 = false
    ∧ (rolling_window [1000, 1000, 1000, 1000, 1000, 1000, 1000, 1000, 1000, 1000] 4000).length ≤ 10 := by
  have h := c3_amended [1000, 1000, 1000, 1000, 1000, 1000, 1000, 1000, 1000, 1000] 4000
  refine ⟨h.1.mpr (Or.inr ?_), h.2.2 (by norm_num)⟩
  norm_num [rolling_window]

/-- A run of in-window messages below the budget: each is accepted and the
counter advances by one per message. -/
lemma run_rate_in_window (t0 : Nat) :
    ∀ (ts : List Nat) (c : Nat), (∀ t ∈ ts, t - t0 ≤ 60) → c + ts.length ≤ rate_limit →
    run_rate ⟨c, some t0⟩ ts = (List.replicate ts.length true, ⟨c + ts.length, some t0⟩) := by
  intro ts
  induction ts with
  | nil => intro c _ _; simp [run_rate]
  | cons t ts ih =>
    intro c hin hc
    have hw : ¬ t - t0 > 60 := by have := hin t (by simp); omega
    have hcount : ¬ c ≥ rate_limit := by
      simp only [List.length_cons] at hc
      simp only [rate_limit] at hc ⊢
      omega
    have step : check_rate_limit ⟨c, some t0⟩ t = (true, ⟨c + 1, some t0⟩) := by
      simp only [check_rate_limit, if_neg hw, if_neg hcount]
    have rest := ih (c + 1) (fun x hx => hin x (by simp [hx]))
      (by simp only [List.length_cons] at hc; omega)
    simp only [run_rate, step, rest, List.length_cons, List.replicate_succ]
    have harith : c + 1 + ts.length = c + (ts.length + 1) := by omega
    rw [harith]

/-- C4: from the freshly initialised per-connection state (counter 0, reset
time = accept time `t0`), 100 messages arriving within 60 seconds of `t0`
are all accepted and leave the counter at 100; a 101st message inside the
same window is rejected with the state unchanged; a message arriving more
than 60 seconds after `t0` resets the counter and is accepted. -/
theorem c4_rate_limit (t0 : Nat) (ts : List Nat) (t101 textra : Nat)
    (hlen : ts.length = 100) (hin : ∀ t ∈ ts, t - t0 ≤ 60)
    (h101 : t101 - t0 ≤ 60) (hextra : textra - t0 > 60) :
    run_rate ⟨0, some t0⟩ ts = (List.replicate 100 true, ⟨100, some t0⟩)
    ∧ check_rate_limit ⟨100, some t0⟩ t101 = (false, ⟨100, some t0⟩)
    ∧ check_rate_limit ⟨100, some t0⟩ textra = (true, ⟨0, some textra⟩) := by
  refine ⟨?_, ?_, ?_⟩
  · have h := run_rate_in_window t0 ts 0 hin (by simp only [hlen, rate_limit]; omega)
    simpa [hlen] using h
  · have h1 : ¬ t101 - t0 > 60 := by omega
    have h2 : (100 : Nat) ≥ rate_limit := by simp [rate_limit]
    simp only [check_rate_limit, if_neg h1, if_pos h2]
  · simp only [check_rate_limit, if_pos hextra]

/-- Witness for C4: accept time 0, 100 messages at second 30, a 101st at
second 59 (rejected), and one at second 61 (window reset, accepted). -/
theorem c4_rate_limit_witness :
    run_rate ⟨0, some 0⟩ (List.replicate 100 30) = (List.replicate 100 true, ⟨100, some 0⟩)
    ∧ check_rate_limit ⟨100, some 0⟩ 59 = (false, ⟨100, some 0⟩)
    ∧ check_rate_limit ⟨100, some 0⟩ 61 = (true, ⟨0, some 61⟩) :=
  c4_rate_limit 0 (List.replicate 100 30) 59 61 (by simp)
    (by intro t ht; simp at ht; omega) (by omega) (by omega)

/-- C1: evaluation of the server's message handler at the claim's failing
input — an envelope whose ciphertext is intact but whose `signature` field
was corrupted in transit (present and non-empty, but no longer the HMAC of
the payload).  The source never verifies the signature value (it only
requires the field to be non-empty), so instead of closing with the
malformed-message code it decrypts, dispatches, and replies normally. -/
theorem c1_corrupted_signature_processed :
    handle_message "f3a9c0d1e2b4a5c6"
      (.envelope (some "intact-ciphertext") (some "corrupted-hmac-hex")
        (.ok ⟨some "ping", some "payload", some "clienttok"⟩))
      = .reply ⟨"pong", none, none, "clienttok"⟩ "clienttok" := rfl

/-- C5: for every well-formed decrypted inbound message (envelope fields
non-empty, `type` and `data` present, carrying session token `tok`), a
`ping` gets a `pong` reply echoing `tok`, a `bookmarks` gets an `ack`
reply, and any other type gets an `error` reply with a descriptive message;
in all three cases the action is a reply, never a close. -/
theorem c5_dispatch (stateToken tok : String) (d s : Option String) (m : InnerMsg)
    (hd : falsy d = false) (hs : falsy s = false)
    (hv : validate_message m = true) (hst : m.session_token = some tok) :
    (m.type = some "ping" →
      handle_message stateToken (.envelope d s (.ok m)) = .reply ⟨"pong", none, none, tok⟩ tok)
    ∧ (m.type = some "bookmarks" →
      handle_message stateToken (.envelope d s (.ok m))
        = .reply ⟨"ack", some "received", none, tok⟩ tok)
    ∧ (∀ ty : String, m.type = some ty → ty ≠ "ping" → ty ≠ "bookmarks" →
      handle_message stateToken (.envelope d s (.ok m))
        = .reply ⟨"error", none, some "Unknown message type", tok⟩ tok) := by
  refine ⟨?_, ?_, ?_⟩
  · intro hty
    simp [handle_message, hd, hs, hv, hst, hty]
  · intro hty
    simp [handle_message, hd, hs, hv, hst, hty]
  · intro ty hty hne1 hne2
    simp [handle_message, hd, hs, hv, hst, hty, hne1, hne2]

/-- Witness for C5 at concrete `ping`, `bookmarks`, and `sync` messages. -/
theorem c5_dispatch_witness :
    handle_message "srv" (.envelope (some "c") (some "s") (.ok ⟨some "ping", some "d", some "t"⟩))
      = .reply ⟨"pong", none, none, "t"⟩ "t"
    ∧ handle_message "srv" (.envelope (some "c") (some "s") (.ok ⟨some "bookmarks", some "d", some "t"⟩))
      = .reply ⟨"ack", some "received", none, "t"⟩ "t"
    ∧ handle_message "srv" (.envelope (some "c") (some "s") (.ok ⟨some "sync", some "d", some "t"⟩))
      = .reply ⟨"error", none, some "Unknown message type", "t"⟩ "t" :=
  ⟨(c5_dispatch "srv" "t" (some "c") (some "s") ⟨some "ping", some "d", some "t"⟩
      rfl rfl rfl rfl).1 rfl,
   (c5_dispatch "srv" "t" (some "c") (some "s") ⟨some "bookmarks", some "d", some "t"⟩
      rfl rfl rfl rfl).2.1 rfl,
   (c5_dispatch "srv" "t" (some "c") (some "s") ⟨some "sync", some "d", some "t"⟩
      rfl rfl rfl rfl).2.2 "sync" rfl (by decide) (by decide)⟩

/-- C10: the handler's behaviour is identical for any two values of the
per-connection session token stored at accept time (it is never read), and
for every valid inbound message the reply is signed with the session token
taken from that message, defaulting to the empty string — so a client
verifying replies against the token it sent always has the right key. -/
theorem c10_reply_signed_with_inbound_token (t1 t2 : String) (d s : Option String) (m : InnerMsg)
    (hd : falsy d = false) (hs : falsy s = false) (hv : validate_message m = true) :
    (∀ msg : Inbound, handle_message t1 msg = handle_message t2 msg)
    ∧ ∃ r : Response, handle_message t1 (.envelope d s (.ok m))
        = .reply r (m.session_token.getD "") := by
  constructor
  · intro msg
    rfl
  · simp only [handle_message, hd, hs, hv]
    simp

/-- Witness for C10 at a concrete `ping` message carrying token `"t"` and
two different server-side stored tokens. -/
theorem c10_reply_signed_with_inbound_token_witness :
    handle_message "servertok-a" (.envelope (some "c") (some "s") (.ok ⟨some "ping", some "d", some "t"⟩))
      = handle_message "servertok-b" (.envelope (some "c") (some "s") (.ok ⟨some "ping", some "d", some "t"⟩))
    ∧ ∃ r : Response,
        handle_message "servertok-a" (.envelope (some "c") (some "s") (.ok ⟨some "ping", some "d", some "t"⟩))
          = .reply r "t" :=
  ⟨(c10_reply_signed_with_inbound_token "servertok-a" "servertok-b" (some "c") (some "s")
      ⟨some "ping", some "d", some "t"⟩ rfl rfl rfl).1 _,
   (c10_reply_signed_with_inbound_token "servertok-a" "servertok-b" (some "c") (some "s")
      ⟨some "ping", some "d", some "t"⟩ rfl rfl rfl).2⟩

/-- C6: reconnect attempt `n` (for `1 ≤ n ≤ 5`, i.e. from a state with
`n - 1` attempts already made) is preceded by a wait of exactly
`5 * 2 ^ (n - 1)` seconds; once 5 attempts have been made, the handler
gives up: `connected` becomes `false`, the `connection_lost` event is
emitted, and no retry (hence no 6th attempt) is initiated — and the
attempt counter stays at 5, so every later invocation also gives up. -/
theorem c6_reconnect_backoff (st : ClientState) (n : Nat)
    (h1 : 1 ≤ n) (h5 : n ≤ 5) (hatt : st.reconnect_attempts = n - 1) :
    handle_connection_loss st
      = (.retry (5 * 2 ^ (n - 1)), { st with reconnect_attempts := n })
    ∧ ∀ st' : ClientState, st'.reconnect_attempts = 5 →
        handle_connection_loss st'
          = (.giveUp, { st' with connected := false, connection_lost_emitted := true }) := by
  constructor
  · have hn : n - 1 + 1 = n := by omega
    simp only [handle_connection_loss, max_reconnect_attempts, reconnect_delay, hatt]
    rw [if_pos (by omega)]
    rw [hn]
  · intro st' h
    simp only [handle_connection_loss, max_reconnect_attempts, h]
    rw [if_neg (by omega)]

/-- Witness for C6 at attempt 3 (delay 20 s) and at the exhausted state. -/
theorem c6_reconnect_backoff_witness :
    handle_connection_loss ⟨2, true, false⟩ = (.retry (5 * 2 ^ 2), ⟨3, true, false⟩)
    ∧ handle_connection_loss ⟨5, true, false⟩ = (.giveUp, ⟨5, false, true⟩) :=
  ⟨(c6_reconnect_backoff ⟨2, true, false⟩ 3 (by decide) (by decide) rfl).1,
   (c6_reconnect_backoff ⟨2, true, false⟩ 3 (by decide) (by decide) rfl).2 ⟨5, true, false⟩ rfl⟩

/-- C7: `send_bookmarks` while not connected fails with the not-connected
error *and* appends the bookmarks message to the outbound queue; one drain
tick pops the head of a non-empty queue and, when delivery fails,
re-appends that same message at the tail instead of dropping it. -/
theorem c7_queue_retention (α : Type) (q : List (QueuedMsg α)) (bm : List α) (so : Bool)
    (m : QueuedMsg α) (rest : List (QueuedMsg α)) (f : QueuedMsg α → Bool) :
    send_bookmarks false q bm so = (.error "Not connected to peer", q ++ [⟨"bookmarks", bm⟩])
    ∧ (f m = true → process_message_queue_tick (m :: rest) f = rest)
    ∧ (f m = false → process_message_queue_tick (m :: rest) f = rest ++ [m]) := by
  refine ⟨rfl, ?_, ?_⟩
  · intro h
    simp [process_message_queue_tick, h]
  · intro h
    simp [process_message_queue_tick, h]

/-- Witness for C7 with a concrete queue over `Nat` records, one
successful and one failing delivery. -/
theorem c7_queue_retention_witness :
    send_bookmarks false ([] : List (QueuedMsg Nat)) [1, 2, 3] true
      = (.error "Not connected to peer", [⟨"bookmarks", [1, 2, 3]⟩])
    ∧ process_message_queue_tick [(⟨"bookmarks", [4]⟩ : QueuedMsg Nat)] (fun _ => true) = []
    ∧ process_message_queue_tick [(⟨"bookmarks", [4]⟩ : QueuedMsg Nat)] (fun _ => false)
        = [⟨"bookmarks", [4]⟩] :=
  ⟨(c7_queue_retention Nat [] [1, 2, 3] true ⟨"bookmarks", [4]⟩ [] (fun _ => true)).1,
   (c7_queue_retention Nat [] [1, 2, 3] true ⟨"bookmarks", [4]⟩ [] (fun _ => true)).2.1 rfl,
   (c7_queue_retention Nat [] [1, 2, 3] true ⟨"bookmarks", [4]⟩ [] (fun _ => false)).2.2 rfl⟩

/-- `min_ts` bounds every timestamp in the history from below. -/
lemma min_ts_le (h : History) : ∀ p ∈ h, min_ts h ≤ p.2.ts := by
  induction h with
  | nil => simp
  | cons a t ih =>
    intro p hp
    cases t with
    | nil =>
      simp only [List.mem_singleton] at hp
      subst hp
      simp [min_ts]
    | cons b u =>
      rcases List.mem_cons.mp hp with h1 | h2
      · subst h1
        simp only [min_ts]
        omega
      · have hrec := ih p h2
        simp only [min_ts]
        omega

/-- A non-empty history contains an entry carrying the minimal timestamp. -/
lemma min_ts_mem (h : History) (hne : h ≠ []) : ∃ p ∈ h, p.2.ts = min_ts h := by
  induction h with
  | nil => exact absurd rfl hne
  | cons a t ih =>
    cases t with
    | nil => exact ⟨a, by simp, by simp [min_ts]⟩
    | cons b u =>
      rcases ih (by simp) with ⟨p, hp, hts⟩
      by_cases hle : a.2.ts ≤ min_ts (b :: u)
      · refine ⟨a, by simp, ?_⟩
        simp only [min_ts]
        omega
      · refine ⟨p, by simp [hp], ?_⟩
        simp only [min_ts]
        omega

/-- The eviction loop removes exactly one entry: one whose timestamp is `t`,
whose address (under distinct keys) no longer occurs, shrinking the history
by one; everything kept was already present. -/
lemma erase_first_with_ts_spec (t : Nat) (h : History)
    (hmem : ∃ p ∈ h, p.2.ts = t) (hnd : (h.map Prod.fst).Nodup) :
    ∃ p ∈ h, p.2.ts = t
      ∧ p.1 ∉ (erase_first_with_ts t h).map Prod.fst
      ∧ (erase_first_with_ts t h).length + 1 = h.length
      ∧ ∀ q ∈ erase_first_with_ts t h, q ∈ h := by
  induction h with
  | nil => simp at hmem
  | cons a rest ih =>
    simp only [List.map_cons, List.nodup_cons] at hnd
    by_cases ha : a.2.ts = t
    · refine ⟨a, List.mem_cons_self _ _, ha, ?_, ?_, ?_⟩
      · simp only [erase_first_with_ts, if_pos ha]
        exact hnd.1
      · simp [erase_first_with_ts, if_pos ha]
      · intro q hq
        simp only [erase_first_with_ts, if_pos ha] at hq
        exact List.mem_cons_of_mem _ hq
    · have hmem' : ∃ p ∈ rest, p.2.ts = t := by
        rcases hmem with ⟨p, hp, hpt⟩
        rcases List.mem_cons.mp hp with h1 | h2
        · subst h1; exact absurd hpt ha
        · exact ⟨p, h2, hpt⟩
      rcases ih hmem' hnd.2 with ⟨p, hp, hpt, hnot, hlen, hsub⟩
      refine ⟨p, List.mem_cons_of_mem _ hp, hpt, ?_, ?_, ?_⟩
      · simp only [erase_first_with_ts, if_neg ha, List.map_cons, List.mem_cons, not_or]
        refine ⟨?_, hnot⟩
        intro he
        exact hnd.1 (he ▸ List.mem_map_of_mem Prod.fst hp)
      · simp only [erase_first_with_ts, if_neg ha, List.length_cons]
        omega
      · intro q hq
        simp only [erase_first_with_ts, if_neg ha] at hq
        rcases List.mem_cons.mp hq with h1 | h2
        · subst h1; exact List.mem_cons_self _ _
        · exact List.mem_cons_of_mem _ (hsub q h2)

/-- Dict assignment under a fresh key appends the pair at the end. -/
lemma set_entry_of_not_contains (h : History) (addr : String) (e : HistoryEntry)
    (hnc : containsKey h addr = false) : set_entry h addr e = h ++ [(addr, e)] := by
  induction h with
  | nil => rfl
  | cons a rest ih =>
    simp only [containsKey, List.any_cons, Bool.or_eq_false_iff,
      decide_eq_false_iff_not] at hnc
    simp only [set_entry, if_neg hnc.1]
    rw [ih (by simp only [containsKey]; exact hnc.2)]
    simp

/-- Dict assignment under an existing key keeps the length. -/
lemma set_entry_length_of_contains (h : History) (addr : String) (e : HistoryEntry)
    (hc : containsKey h addr = true) : (set_entry h addr e).length = h.length := by
  induction h with
  | nil => simp [containsKey] at hc
  | cons a rest ih =>
    simp only [containsKey, List.any_cons, Bool.or_eq_true,
      decide_eq_true_eq] at hc
    by_cases ha : a.1 = addr
    · simp [set_entry, if_pos ha]
    · rcases hc with h1 | h2
      · exact absurd h1 ha
      · simp only [set_entry, if_neg ha, List.length_cons]
        rw [ih (by simp only [containsKey]; exact h2)]

/-- `addr in dict` unfolded to membership. -/
lemma containsKey_iff (h : History) (addr : String) :
    containsKey h addr = true ↔ ∃ q ∈ h, q.1 = addr := by
  simp [containsKey]

/-- C9: starting from any history within the 50-entry cap (with distinct
addresses, as a Python dict guarantees), one update — the operation both
`update_from_event` and `update_from_service_discovery` funnel through —
keeps the history within the cap; and when an update for a new peer address
arrives at exactly 50 entries, an entry whose timestamp is minimal (oldest)
is evicted, its address disappears, the new address/entry pair is recorded,
and the history again holds exactly 50 entries. -/
theorem c9_history_bounded (h : History) (addr : String) (e : HistoryEntry)
    (hnd : (h.map Prod.fst).Nodup) (hlen : h.length ≤ MAX_HISTORY_SIZE) :
    (update_service_history h addr e).length ≤ MAX_HISTORY_SIZE
    ∧ (h.length = MAX_HISTORY_SIZE → containsKey h addr = false →
        ∃ p ∈ h, (∀ q ∈ h, p.2.ts ≤ q.2.ts)
          ∧ p.1 ∉ (update_service_history h addr e).map Prod.fst
          ∧ (addr, e) ∈ update_service_history h addr e
          ∧ (update_service_history h addr e).length = MAX_HISTORY_SIZE) := by
  by_cases hc : containsKey h addr = true
  · constructor
    · simp only [update_service_history]
      rw [if_neg (by simp [hc])]
      rw [set_entry_length_of_contains h addr e hc]
      exact hlen
    · intro _ hnc
      rw [hnc] at hc
      exact absurd hc (by simp)
  · have hcf : containsKey h addr = false := by
      cases hcb : containsKey h addr
      · rfl
      · exact absurd hcb hc
    by_cases h50 : MAX_HISTORY_SIZE ≤ h.length
    · have hlen50 : h.length = MAX_HISTORY_SIZE := le_antisymm hlen h50
      have hne : h ≠ [] := by
        intro hnil
        rw [hnil] at hlen50
        simp [MAX_HISTORY_SIZE] at hlen50
      obtain ⟨p, hp, hpt, hnot, hlen1, hsub⟩ :=
        erase_first_with_ts_spec (min_ts h) h (min_ts_mem h hne) hnd
      set h1 := erase_first_with_ts (min_ts h) h with hh1
      have hnc1 : containsKey h1 addr = false := by
        cases hcb : containsKey h1 addr
        · rfl
        · obtain ⟨q, hq, hqa⟩ := (containsKey_iff h1 addr).mp hcb
          exact absurd ((containsKey_iff h addr).mpr ⟨q, hsub q hq, hqa⟩) hc
      have hupd : update_service_history h addr e = h1 ++ [(addr, e)] := by
        simp only [update_service_history]
        rw [if_pos ⟨h50, hc⟩]
        exact set_entry_of_not_contains h1 addr e hnc1
      have hlenupd : (update_service_history h addr e).length = MAX_HISTORY_SIZE := by
        rw [hupd]
        simp only [List.length_append, List.length_singleton]
        omega
      have haddr_ne : p.1 ≠ addr := by
        intro he
        exact hc ((containsKey_iff h addr).mpr ⟨p, hp, he⟩)
      refine ⟨le_of_eq hlenupd, fun _ _ => ⟨p, hp, ?_, ?_, ?_, hlenupd⟩⟩
      · intro q hq
        rw [hpt]
        exact min_ts_le h q hq
      · rw [hupd]
        simp only [List.map_append, List.mem_append, List.map_cons, List.map_nil,
          List.mem_singleton, not_or]
        exact ⟨hnot, haddr_ne⟩
      · rw [hupd]
        simp
    · have hupd : update_service_history h addr e = h ++ [(addr, e)] := by
        simp only [update_service_history]
        rw [if_neg (by intro hcc; exact h50 hcc.1)]
        exact set_entry_of_not_contains h addr e hcf
      constructor
      · rw [hupd]
        simp only [List.length_append, List.length_singleton]
        omega
      · intro h50' _
        exact absurd h50' (by omega)

/-- Witness for C9: a concrete 50-entry history (addresses `"0"`..`"49"`,
timestamps 0..49) receiving an update for the fresh address `"peer-new"`. -/
theorem c9_history_bounded_witness :
    (update_service_history sample_history "peer-new" ⟨.discovered, 100, none, none⟩).length
        ≤ MAX_HISTORY_SIZE
    ∧ ∃ p ∈ sample_history, (∀ q ∈ sample_history, p.2.ts ≤ q.2.ts)
        ∧ p.1 ∉ (update_service_history sample_history "peer-new"
            ⟨.discovered, 100, none, none⟩).map Prod.fst
        ∧ ("peer-new", (⟨.discovered, 100, none, none⟩ : HistoryEntry))
            ∈ update_service_history sample_history "peer-new" ⟨.discovered, 100, none, none⟩
        ∧ (update_service_history sample_history "peer-new"
            ⟨.discovered, 100, none, none⟩).length = MAX_HISTORY_SIZE :=
  have h := c9_history_bounded sample_history "peer-new" ⟨.discovered, 100, none, none⟩
    (by decide) (by decide)
  ⟨h.1, h.2 (by decide) (by decide)⟩

end BookmarkManager
